import Mathlib

/-!
Shallow embedding of `src/run_gesture_webcam.js`, a Node.js utility that
captures a webcam frame every five seconds, runs it through an image
classification model, and logs the top prediction.

Modelling choices:
* Numbers are exact rationals (`ℚ`): the scores the program manipulates are
  probability-like values, and every arithmetic step the claims mention
  (`* 100`, `/ 255`, `toFixed`) is exact on rationals.
* A JavaScript array lookup that can yield `undefined` becomes an `Option`;
  the nullish coalescing operator `??` becomes `Option.getD`.
* `Math.max()` applied to no arguments is `-Infinity`; since no finite score
  equals `-Infinity`, this is modelled by `Option ℚ` with `none` standing
  for `-Infinity`.
* The externals (TensorFlow ops, the webcam, the model) stay opaque: they
  are parameters of the definitions that call them.
-/

/-- Constant `INPUT_SIZE = 224` (line 13 of the source). -/
def INPUT_SIZE : ℕ := 224

/-- Constant `CAPTURE_MS = 5000` (line 12 of the source). -/
def CAPTURE_MS : ℕ := 5000

/-- Exactly `f` decimal digits of `n`, most significant first, left-padded
with zeros: the block of digits printed after the decimal point by
`Number.prototype.toFixed`. -/
def natDigitsPadded : ℕ → ℕ → String
  | 0, _ => ""
  | f + 1, n => natDigitsPadded f (n / 10) ++ (Nat.digitChar (n % 10)).toString

/-- JavaScript `Number.prototype.toFixed(f)` on an exact rational: round
`|q| * 10 ^ f` to the nearest integer, ties away from zero, then print the
integer part, a point, and `f` fractional digits (used at lines 72 and 73
of the source).  The rounded value `⌊|q| * 10 ^ f + 1 / 2⌋` is computed
directly on the numerator and denominator, as
`(2 * |num| * 10 ^ f + den) / (2 * den)` in natural division: both
expressions denote the same integer, and this form evaluates by kernel
reduction. -/
def toFixed (f : ℕ) (q : ℚ) : String :=
  let sign := if q < 0 then "-" else ""
  let n := (2 * (q.num.natAbs * 10 ^ f) + q.den) / (2 * q.den)
  if f = 0 then sign ++ Nat.repr (n / 10 ^ f)
  else sign ++ (Nat.repr (n / 10 ^ f) ++ ("." ++ natDigitsPadded f (n % 10 ^ f)))

/-- Indexing `scores[i]` on a JavaScript array of numbers: `undefined`
(here `none`) for a negative or out-of-range index. -/
def jsGetScore (scores : List ℚ) (i : ℤ) : Option ℚ :=
  if i < 0 then none else scores[i.toNat]?

/-- Indexing `labels[i]` where an entry may itself be `null` or `undefined`
(an entry is `Option String`): a nullish entry and a missing entry both
come out as `none`, exactly the two cases the `??` operator at line 71
falls through on. -/
def jsGetLabel (labels : List (Option String)) (i : ℤ) : Option String :=
  if i < 0 then none else (labels[i.toNat]?).bind id

/-- Line 71 of the source: `labels[topIdx] ?? ` then `class_<topIdx>`. -/
def jsLabel (labels : List (Option String)) (i : ℤ) : String :=
  (jsGetLabel labels i).getD ("class_" ++ toString i)

/-- Line 72 of the source: `(scores[topIdx] * 100).toFixed(1)`; in
JavaScript `undefined * 100` is `NaN` and `NaN.toFixed(1)` is the string
`"NaN"`. -/
def jsConfidence (scores : List ℚ) (i : ℤ) : String :=
  match jsGetScore scores i with
  | some v => toFixed 1 (v * 100)
  | none => "NaN"

/-- JavaScript `Math.max(...scores)` (line 70): the maximum of the list,
with `none` standing for the `-Infinity` returned on an empty spread. -/
def jsMathMax : List ℚ → Option ℚ
  | [] => none
  | x :: xs =>
    match jsMathMax xs with
    | none => some x
    | some m => some (max x m)

/-- First index of `v` in `xs` under strict equality, as in
`Array.prototype.indexOf`. -/
def jsIndexOfAux (v : ℚ) : List ℚ → Option ℕ
  | [] => none
  | x :: xs => if x = v then some 0 else (jsIndexOfAux v xs).map (· + 1)

/-- JavaScript `scores.indexOf(v)`: the first index holding `v`, or `-1`
when no element equals `v`. -/
def jsIndexOf (xs : List ℚ) (v : ℚ) : ℤ :=
  match jsIndexOfAux v xs with
  | some j => (j : ℤ)
  | none => -1

/-- Line 70 of the source: `scores.indexOf(Math.max(...scores))`.  On an
empty vector `Math.max()` is `-Infinity`, which no element equals, so the
result is `-1`. -/
def topIdx (scores : List ℚ) : ℤ :=
  match jsMathMax scores with
  | none => -1
  | some m => jsIndexOf scores m

/-- The trailing score list of the log line (line 73):
`scores.map(v => v.toFixed(2)).join(', ')`. -/
def scoresText (scores : List ℚ) : String :=
  String.intercalate ", " (scores.map (toFixed 2))

/-- Line 73 of the source, the success log line (grouped to the right so
that everything after the timestamp is one closed string once the labels
and scores are fixed). -/
def logLine (labels : List (Option String)) (scores : List ℚ) (ts : String) : String :=
  "[" ++ (ts ++ ("] " ++ (jsLabel labels (topIdx scores) ++
    (" (" ++ (jsConfidence scores (topIdx scores) ++
      ("%) | scores=" ++ scoresText scores))))))

/-- Line 75 of the source: the stderr line of a failed cycle. -/
def errLine (msg : String) : String := "Capture/predict error: " ++ msg

/-- Fine-grained scheduler events for the `setInterval` loop (lines 64-79
of the source): `tick` is one invocation of the interval callback;
`finish ok` is an in-flight cycle reaching its `finally` block, having
succeeded when `ok` is `true` and thrown otherwise. -/
inductive SchedEvent where
  | tick : SchedEvent
  | finish : Bool → SchedEvent

/-- Scheduler state: the `running` guard flag declared at line 60, plus an
instrumentation counter of the cycles currently in flight (the cycle body
is asynchronous, so ticks can arrive while a cycle is suspended at
`await`). -/
structure SchedState where
  running : Bool
  active : ℕ
deriving DecidableEq

/-- Startup state of the loop: `running = false` (line 60), nothing in
flight. -/
def initSched : SchedState := { running := false, active := 0 }

/-- One scheduler transition.  A tick that arrives while `running` is true
returns immediately (line 65), leaving the state unchanged — the tick is
dropped and nothing is queued.  A tick while idle sets the flag (line 66)
and starts one cycle.  Reaching the `finally` block (lines 76-78) clears
the flag whether the `try` body succeeded or threw. -/
def schedStep (s : SchedState) : SchedEvent → SchedState
  | SchedEvent.tick =>
    if s.running then s else { running := true, active := s.active + 1 }
  | SchedEvent.finish _ => { running := false, active := s.active - 1 }

/-- The scheduler state after a sequence of events, starting from startup. -/
def schedRun (events : List SchedEvent) : SchedState :=
  events.foldl schedStep initSched

/-- Outcome of the body of one cycle, with the externals abstracted:
`ok scores ts` when capture and predict both succeeded (lines 68-69),
where `scores` is what `predict` returned and `ts` the timestamp string
`new Date().toISOString()`; `err msg` when capture or predict threw,
carrying `err.message`. -/
inductive CycleOutcome where
  | ok : List ℚ → String → CycleOutcome
  | err : String → CycleOutcome

/-- Observable loop state at cycle granularity: the guard flag and the two
output streams. -/
structure LoopState where
  running : Bool
  stdoutLog : List String
  stderrLog : List String
deriving DecidableEq

/-- One whole interval callback (lines 64-79) viewed at cycle granularity.
A tick on a busy loop is a no-op (line 65).  Otherwise the cycle runs to
its end: on success exactly the line of line 73 goes to stdout; on error
the `catch` block (lines 74-75) sends exactly one line to stderr and
nothing to stdout.  In both cases the `finally` block leaves
`running = false`. -/
def tickRun (labels : List (Option String)) (st : LoopState) (o : CycleOutcome) : LoopState :=
  if st.running then st
  else
    match o with
    | CycleOutcome.ok scores ts =>
      { running := false
        stdoutLog := st.stdoutLog ++ [logLine labels scores ts]
        stderrLog := st.stderrLog }
    | CycleOutcome.err msg =>
      { running := false
        stdoutLog := st.stdoutLog
        stderrLog := st.stderrLog ++ [errLine msg] }

/-- Observable outcome of process startup: what went to stderr, the exit
code (`none` meaning the process keeps running and never exits on its
own), and whether the `setInterval` timer loop was entered. -/
structure ProcessOutcome where
  stderrLog : List String
  exitCode : Option ℕ
  timerStarted : Bool
deriving DecidableEq

/-- Lines 57-62 and 82-84 of the source.  When `loadModelAndLabels`
rejects (model unloadable, metadata unreadable or unparsable), `main()`
rejects before reaching `setInterval`, and the final `.catch` handler logs
`Failed to start:` with the error and returns.  Nothing in the program
sets `process.exitCode` or calls `process.exit`, so the process then ends
with Node's default exit code 0 once the event loop drains.  On success
the interval timer keeps the process alive indefinitely (`exitCode =
none`). -/
def runMain (load : Except String Unit) : ProcessOutcome :=
  match load with
  | Except.ok _ => { stderrLog := [], exitCode := none, timerStarted := true }
  | Except.error e =>
    { stderrLog := ["Failed to start: " ++ e]
      exitCode := some 0
      timerStarted := false }

/-- Line 20 of the source: `const { labels = [] } = JSON.parse(metadataRaw)`.
The destructuring default replaces an absent `labels` field (`none`) with
the empty array. -/
def parseLabels (metaLabels : Option (List (Option String))) : List (Option String) :=
  metaLabels.getD []

/-- A pixel of the decoded 3-channel image (the `3` passed to
`tf.node.decodeImage` at line 48). -/
structure Pixel where
  r : ℚ
  g : ℚ
  b : ℚ
deriving DecidableEq

/-- A height-by-width grid of pixels: the value of an image tensor. -/
abbrev Grid := List (List Pixel)

/-- Channel-wise division of one pixel. -/
def pixelDiv (p : Pixel) (d : ℚ) : Pixel := ⟨p.r / d, p.g / d, p.b / d⟩

/-- Pointwise `tensor.div(d)` (line 50 of the source divides by 255). -/
def gridDiv (g : Grid) (d : ℚ) : Grid :=
  g.map (fun row => row.map (fun p => pixelDiv p d))

/-- Lines 46-55 of the source, with the opaque externals as parameters:
decode the buffer to a 3-channel grid, `resizeBilinear` to
`[INPUT_SIZE, INPUT_SIZE]`, divide by 255, `expandDims(0)` into a batch of
one, run the model on the batch, and flatten the batch output with
`dataSync()`.  `tf.tidy` only scopes tensor lifetimes and does not change
the computed value. -/
def predict (decodeImage : List ℕ → ℕ → Grid)
    (resizeBilinear : Grid → ℕ → ℕ → Grid)
    (modelPredict : List Grid → List (List ℚ))
    (buffer : List ℕ) : List ℚ :=
  let image := decodeImage buffer 3
  let resized := resizeBilinear image INPUT_SIZE INPUT_SIZE
  let normalized := gridDiv resized 255
  let batched := [normalized]
  let logits := modelPredict batched
  logits.flatten

/-- The pipeline exactly as the specification words it: decode the encoded
bytes to a 3-channel pixel grid, resize by bilinear interpolation to the
fixed square input size 224, normalize by dividing pixel values by 255 and
nothing else, wrap into a batch of size 1, invoke the model, and return
the single output vector of the batch-of-1 result. -/
def predictSpecSteps (decodeImage : List ℕ → ℕ → Grid)
    (resizeBilinear : Grid → ℕ → ℕ → Grid)
    (modelSingle : Grid → List ℚ)
    (buffer : List ℕ) : List ℚ :=
  modelSingle (gridDiv (resizeBilinear (decodeImage buffer 3) 224 224) 255)

theorem natDigitsPadded_length (f : ℕ) : ∀ n : ℕ, (natDigitsPadded f n).length = f := by
  induction f with
  | zero => intro n; rfl
  | succ f ih =>
    intro n
    simp [natDigitsPadded, String.length_append, ih]

theorem toFixed_shape (f : ℕ) (hf : f ≠ 0) (q : ℚ) :
    ∃ a b : String, toFixed f q = a ++ ("." ++ b) ∧ b.length = f := by
  refine ⟨(if q < 0 then "-" else "") ++
      Nat.repr ((2 * (q.num.natAbs * 10 ^ f) + q.den) / (2 * q.den) / 10 ^ f),
    natDigitsPadded f ((2 * (q.num.natAbs * 10 ^ f) + q.den) / (2 * q.den) % 10 ^ f),
    ?_, natDigitsPadded_length f _⟩
  simp [toFixed, hf, String.append_assoc]

theorem jsMathMax_eq_none {xs : List ℚ} (h : jsMathMax xs = none) : xs = [] := by
  cases xs with
  | nil => rfl
  | cons x xs =>
    cases hx : jsMathMax xs <;> simp [jsMathMax, hx] at h

theorem jsMathMax_mem {xs : List ℚ} {m : ℚ} (h : jsMathMax xs = some m) : m ∈ xs := by
  induction xs generalizing m with
  | nil => simp [jsMathMax] at h
  | cons x xs ih =>
    simp only [jsMathMax] at h
    cases hx : jsMathMax xs with
    | none =>
      rw [hx] at h
      simp only [Option.some.injEq] at h
      subst h
      exact List.mem_cons_self x xs
    | some m' =>
      rw [hx] at h
      simp only [Option.some.injEq] at h
      subst h
      rcases max_choice x m' with hc | hc <;> rw [hc]
      · exact List.mem_cons_self x xs
      · exact List.mem_cons_of_mem x (ih hx)

theorem jsMathMax_le {xs : List ℚ} {m : ℚ} (h : jsMathMax xs = some m) :
    ∀ y ∈ xs, y ≤ m := by
  induction xs generalizing m with
  | nil => simp [jsMathMax] at h
  | cons x xs ih =>
    simp only [jsMathMax] at h
    cases hx : jsMathMax xs with
    | none =>
      rw [hx] at h
      simp only [Option.some.injEq] at h
      subst h
      have hnil := jsMathMax_eq_none hx
      subst hnil
      intro y hy
      simp only [List.mem_singleton] at hy
      exact le_of_eq hy
    | some m' =>
      rw [hx] at h
      simp only [Option.some.injEq] at h
      subst h
      intro y hy
      rcases List.mem_cons.mp hy with rfl | hy'
      · exact le_max_left ..
      · exact le_trans (ih hx y hy') (le_max_right ..)

theorem jsIndexOfAux_spec {v : ℚ} {xs : List ℚ} {j : ℕ}
    (h : jsIndexOfAux v xs = some j) :
    xs[j]? = some v ∧ ∀ k y, k < j → xs[k]? = some y → y ≠ v := by
  induction xs generalizing j with
  | nil => simp [jsIndexOfAux] at h
  | cons x xs ih =>
    simp only [jsIndexOfAux] at h
    by_cases hx : x = v
    · rw [if_pos hx] at h
      simp only [Option.some.injEq] at h
      subst h
      subst hx
      exact ⟨by simp, fun k y hk _ => absurd hk (Nat.not_lt_zero k)⟩
    · rw [if_neg hx] at h
      cases haux : jsIndexOfAux v xs with
      | none => rw [haux] at h; simp at h
      | some j' =>
        rw [haux] at h
        simp only [Option.map_some', Option.some.injEq] at h
        subst h
        obtain ⟨h1, h2⟩ := ih haux
        refine ⟨by simpa using h1, ?_⟩
        intro k y hk hkk
        cases k with
        | zero =>
          simp only [List.getElem?_cons_zero, Option.some.injEq] at hkk
          subst hkk
          exact hx
        | succ k' =>
          simp only [List.getElem?_cons_succ] at hkk
          exact h2 k' y (by omega) hkk

theorem jsIndexOfAux_of_mem {v : ℚ} {xs : List ℚ} (h : v ∈ xs) :
    ∃ j, jsIndexOfAux v xs = some j := by
  induction xs with
  | nil => simp at h
  | cons x xs ih =>
    by_cases hx : x = v
    · exact ⟨0, by simp [jsIndexOfAux, hx]⟩
    · have hv : v ∈ xs := by
        rcases List.mem_cons.mp h with rfl | h'
        · exact absurd rfl hx
        · exact h'
      obtain ⟨j, hj⟩ := ih hv
      exact ⟨j + 1, by simp [jsIndexOfAux, hx, hj]⟩

theorem mem_of_getElemQ {α : Type} {xs : List α} {k : ℕ} {y : α}
    (h : xs[k]? = some y) : y ∈ xs := by
  induction xs generalizing k with
  | nil => simp at h
  | cons x xs ih =>
    cases k with
    | zero =>
      simp only [List.getElem?_cons_zero, Option.some.injEq] at h
      subst h
      exact List.mem_cons_self x xs
    | succ k' =>
      simp only [List.getElem?_cons_succ] at h
      exact List.mem_cons_of_mem x (ih h)

theorem topIdx_spec {scores : List ℚ} (h : scores ≠ []) :
    ∃ (j : ℕ) (m : ℚ), topIdx scores = (j : ℤ) ∧ scores[j]? = some m ∧
      (∀ y ∈ scores, y ≤ m) ∧
      (∀ k y, k < j → scores[k]? = some y → y ≠ m) := by
  cases hm : jsMathMax scores with
  | none => exact absurd (jsMathMax_eq_none hm) h
  | some m =>
    obtain ⟨j, hj⟩ := jsIndexOfAux_of_mem (jsMathMax_mem hm)
    obtain ⟨h1, h2⟩ := jsIndexOfAux_spec hj
    exact ⟨j, m, by simp [topIdx, hm, jsIndexOf, hj], h1, jsMathMax_le hm, h2⟩

theorem jsGetScore_natCast (scores : List ℚ) (j : ℕ) :
    jsGetScore scores (j : ℤ) = scores[j]? := by
  unfold jsGetScore
  rw [if_neg (by omega)]
  norm_num

theorem jsGetLabel_natCast (labels : List (Option String)) (j : ℕ) :
    jsGetLabel labels (j : ℤ) = (labels[j]?).bind id := by
  unfold jsGetLabel
  rw [if_neg (by omega)]
  norm_num

theorem schedStep_inv {s : SchedState} (h : s.active = if s.running then 1 else 0)
    (e : SchedEvent) :
    (schedStep s e).active = if (schedStep s e).running then 1 else 0 := by
  cases e with
  | tick =>
    by_cases hr : s.running
    · simpa [schedStep, hr] using h
    · simp [schedStep, hr] at h ⊢
      omega
  | finish ok =>
    by_cases hr : s.running <;> simp [schedStep, hr] at h ⊢ <;> omega

theorem schedRun_inv (events : List SchedEvent) :
    (schedRun events).active = if (schedRun events).running then 1 else 0 := by
  suffices h : ∀ s : SchedState, (s.active = if s.running then 1 else 0) →
      ((events.foldl schedStep s).active =
        if (events.foldl schedStep s).running then 1 else 0) from h initSched rfl
  induction events with
  | nil => intro s hs; exact hs
  | cons e es ih => intro s hs; exact ih _ (schedStep_inv hs e)

/-- C1: for every sequence of scheduler events at most one capture/predict
cycle is in flight; a tick that arrives while the guard flag is set leaves
the scheduler state identical (the tick is dropped, nothing is queued);
and finishing a cycle — whether it succeeded or threw — always resets the
guard flag to false. -/
theorem scheduler_guard_invariant :
    (∀ events : List SchedEvent, (schedRun events).active ≤ 1) ∧
    (∀ s : SchedState, s.running = true → schedStep s SchedEvent.tick = s) ∧
    (∀ (s : SchedState) (ok : Bool),
      (schedStep s (SchedEvent.finish ok)).running = false) := by
  refine ⟨fun events => ?_, fun s hs => by simp [schedStep, hs], fun s ok => rfl⟩
  have h := schedRun_inv events
  by_cases hr : (schedRun events).running <;> simp [hr] at h <;> omega

/-- Witness for C1 at the event sequence `[tick]` and the busy state
`⟨true, 1⟩`. -/
theorem scheduler_guard_invariant_witness :
    (schedRun [SchedEvent.tick]).active ≤ 1 ∧
    schedStep ⟨true, 1⟩ SchedEvent.tick = ⟨true, 1⟩ ∧
    (schedStep ⟨true, 1⟩ (SchedEvent.finish false)).running = false :=
  ⟨scheduler_guard_invariant.1 [SchedEvent.tick],
   scheduler_guard_invariant.2.1 ⟨true, 1⟩ rfl,
   scheduler_guard_invariant.2.2 ⟨true, 1⟩ false⟩

/-- C2: for every nonempty score vector the extracted top index is the
first index attaining the maximum (ties to the lowest index) and the
confidence is `toFixed 1` of 100 times the score there; on the claim's two
concrete inputs the outputs are "paper"/"70.0" and "class_0"/"30.0". -/
theorem top_label_extraction :
    (∀ scores : List ℚ, scores ≠ [] →
      ∃ (j : ℕ) (m : ℚ),
        topIdx scores = (j : ℤ) ∧
        scores[j]? = some m ∧
        (∀ y ∈ scores, y ≤ m) ∧
        (∀ k y, k < j → scores[k]? = some y → y < m) ∧
        jsConfidence scores (topIdx scores) = toFixed 1 (m * 100)) ∧
    jsLabel [some "rock", some "paper", some "scissors"]
      (topIdx [mkRat 1 10, mkRat 7 10, mkRat 2 10]) = "paper" ∧
    jsConfidence [mkRat 1 10, mkRat 7 10, mkRat 2 10]
      (topIdx [mkRat 1 10, mkRat 7 10, mkRat 2 10]) = "70.0" ∧
    jsLabel [] (topIdx [mkRat 3 10, mkRat 3 10]) = "class_0" ∧
    jsConfidence [mkRat 3 10, mkRat 3 10] (topIdx [mkRat 3 10, mkRat 3 10]) = "30.0" := by
  refine ⟨fun scores h => ?_, by decide, ?_, by decide, ?_⟩
  · obtain ⟨j, m, htop, h1, hle, hne⟩ := topIdx_spec h
    refine ⟨j, m, htop, h1, hle, ?_, ?_⟩
    · intro k y hk hky
      exact lt_of_le_of_ne (hle y (mem_of_getElemQ hky)) (hne k y hk hky)
    · have hg : jsGetScore scores (topIdx scores) = some m := by
        rw [htop, jsGetScore_natCast]
        exact h1
      simp only [jsConfidence, hg]
  · have h1 : topIdx [mkRat 1 10, mkRat 7 10, mkRat 2 10] = 1 := by decide
    have h2 : jsGetScore [mkRat 1 10, mkRat 7 10, mkRat 2 10] 1 = some (mkRat 7 10) := by
      decide
    rw [jsConfidence, h1, h2]
    show toFixed 1 (mkRat 7 10 * 100) = "70.0"
    have h3 : (mkRat 7 10 : ℚ) * 100 = 70 := by
      rw [Rat.mkRat_eq_div]
      norm_num
    rw [h3]
    decide
  · have h1 : topIdx [mkRat 3 10, mkRat 3 10] = 0 := by decide
    have h2 : jsGetScore [mkRat 3 10, mkRat 3 10] 0 = some (mkRat 3 10) := by decide
    rw [jsConfidence, h1, h2]
    show toFixed 1 (mkRat 3 10 * 100) = "30.0"
    have h3 : (mkRat 3 10 : ℚ) * 100 = 30 := by
      rw [Rat.mkRat_eq_div]
      norm_num
    rw [h3]
    decide

/-- Witness for C2 on the singleton score vector `[1/2]`. -/
theorem top_label_extraction_witness :
    ∃ (j : ℕ) (m : ℚ),
      topIdx [mkRat 1 2] = (j : ℤ) ∧
      ([mkRat 1 2] : List ℚ)[j]? = some m ∧
      (∀ y ∈ ([mkRat 1 2] : List ℚ), y ≤ m) ∧
      (∀ k y, k < j → ([mkRat 1 2] : List ℚ)[k]? = some y → y < m) ∧
      jsConfidence [mkRat 1 2] (topIdx [mkRat 1 2]) = toFixed 1 (m * 100) :=
  top_label_extraction.1 [mkRat 1 2] (by decide)

/-- C3: a cycle in which capture or predict throws appends exactly one
stderr line carrying the message, appends no stdout line, leaves the guard
flag cleared, and the next tick runs a fresh cycle normally (here: a
following successful tick logs its prediction line). -/
theorem cycle_error_isolation (labels : List (Option String)) (st : LoopState)
    (msg : String) (h : st.running = false) :
    (tickRun labels st (CycleOutcome.err msg)).stderrLog
      = st.stderrLog ++ [errLine msg] ∧
    (tickRun labels st (CycleOutcome.err msg)).stdoutLog = st.stdoutLog ∧
    (tickRun labels st (CycleOutcome.err msg)).running = false ∧
    (∀ scores ts,
      (tickRun labels (tickRun labels st (CycleOutcome.err msg))
          (CycleOutcome.ok scores ts)).stdoutLog
        = st.stdoutLog ++ [logLine labels scores ts]) := by
  simp [tickRun, h]

/-- Witness for C3 from the idle startup state. -/
theorem cycle_error_isolation_witness :
    (tickRun [] ⟨false, [], []⟩ (CycleOutcome.err "Webcam is busy")).stderrLog
      = [] ++ [errLine "Webcam is busy"] ∧
    (tickRun [] ⟨false, [], []⟩ (CycleOutcome.err "Webcam is busy")).stdoutLog = [] ∧
    (tickRun [] ⟨false, [], []⟩ (CycleOutcome.err "Webcam is busy")).running = false ∧
    (∀ scores ts,
      (tickRun [] (tickRun [] ⟨false, [], []⟩ (CycleOutcome.err "Webcam is busy"))
          (CycleOutcome.ok scores ts)).stdoutLog
        = [] ++ [logLine [] scores ts]) :=
  cycle_error_isolation [] ⟨false, [], []⟩ "Webcam is busy" rfl

/-- C4 counterexample: when startup fails (for instance on metadata that is
not valid JSON) the process logs the failure and never starts the timer
loop, but its exit code is 0 — the trailing `.catch` handler swallows the
rejection and nothing sets a non-zero code — so the claimed non-zero exit
code is wrong. -/
theorem startup_exit_counterexample :
    (runMain (Except.error "Unexpected token i in JSON at position 0")).stderrLog
      = ["Failed to start: Unexpected token i in JSON at position 0"] ∧
    (runMain (Except.error "Unexpected token i in JSON at position 0")).timerStarted
      = false ∧
    (runMain (Except.error "Unexpected token i in JSON at position 0")).exitCode
      = some 0 ∧
    (∀ c : ℕ,
      (runMain (Except.error "Unexpected token i in JSON at position 0")).exitCode
        = some c → c = 0) := by
  refine ⟨rfl, rfl, rfl, fun c hc => ?_⟩
  simpa [runMain] using hc.symm

/-- C4 amended: on fatal startup failure the process logs `Failed to
start:` with the error and never enters the timer loop (no cycle runs),
and the caught rejection leaves the process to exit with code 0. -/
theorem startup_failure_behavior (e : String) :
    (runMain (Except.error e)).stderrLog = ["Failed to start: " ++ e] ∧
    (runMain (Except.error e)).exitCode = some 0 ∧
    (runMain (Except.error e)).timerStarted = false :=
  ⟨rfl, rfl, rfl⟩

/-- C5: an index beyond the label list reports exactly `class_<i>`, and an
index with a (string) entry reports that entry. -/
theorem label_lookup_fallback (ls : List String) (i : ℕ) :
    (ls.length ≤ i → jsLabel (ls.map some) (i : ℤ) = "class_" ++ toString (i : ℤ)) ∧
    (∀ s, ls[i]? = some s → jsLabel (ls.map some) (i : ℤ) = s) := by
  constructor
  · intro hlen
    unfold jsLabel
    rw [jsGetLabel_natCast]
    have : (ls.map some)[i]? = none := by
      rw [List.getElem?_eq_none]
      simpa using hlen
    simp [this]
  · intro s hs
    unfold jsLabel
    rw [jsGetLabel_natCast]
    have : (ls.map some)[i]? = some (some s) := by
      rw [List.getElem?_map, hs]
      rfl
    simp [this]

/-- Witness for C5 at the out-of-range index 1 and the in-range index 0 of
the one-label list. -/
theorem label_lookup_fallback_witness :
    jsLabel [some "rock"] ((1 : ℕ) : ℤ) = "class_" ++ toString ((1 : ℕ) : ℤ) ∧
    jsLabel [some "rock"] ((0 : ℕ) : ℤ) = "rock" :=
  ⟨(label_lookup_fallback ["rock"] 1).1 (by decide),
   (label_lookup_fallback ["rock"] 0).2 "rock" (by decide)⟩

/-- C6: the inference pipeline is exactly decode to 3 channels, bilinear
resize to the square input size 224, division of every channel value by
255 and nothing else, a batch of size one, the model call, and the single
output vector of the batch-of-1 result: the source's `predict` coincides
with the specification's step list for every choice of the opaque decode,
resize and model functions and every buffer. -/
theorem inference_pipeline_steps (decodeImage : List ℕ → ℕ → Grid)
    (resizeBilinear : Grid → ℕ → ℕ → Grid)
    (m : Grid → List ℚ) (buffer : List ℕ) :
    predict decodeImage resizeBilinear (fun batch => batch.map m) buffer
      = predictSpecSteps decodeImage resizeBilinear m buffer ∧
    predictSpecSteps decodeImage resizeBilinear m buffer
      = m (gridDiv (resizeBilinear (decodeImage buffer 3) 224 224) 255) ∧
    (∀ p : Pixel, pixelDiv p 255 = ⟨p.r / 255, p.g / 255, p.b / 255⟩) ∧
    INPUT_SIZE = 224 := by
  refine ⟨?_, rfl, fun p => rfl, rfl⟩
  simp [predict, predictSpecSteps, INPUT_SIZE]

/-- C7: a successful cycle appends exactly one stdout line (and nothing to
stderr), that line is exactly
`[<ts>] <label> (<confidence>%) | scores=<v0>, <v1>, ...` with the scores
rendered by `toFixed 2` and joined by `", "`; every `toFixed 1` rendering
has exactly one digit after the point and every `toFixed 2` rendering has
exactly two; and on a nonempty score vector the confidence is the
`toFixed 1` rendering of 100 times a score. -/
theorem success_log_format (labels : List (Option String)) (st : LoopState)
    (scores : List ℚ) (ts : String) (h : st.running = false) :
    (tickRun labels st (CycleOutcome.ok scores ts)).stdoutLog
      = st.stdoutLog ++ [logLine labels scores ts] ∧
    (tickRun labels st (CycleOutcome.ok scores ts)).stderrLog = st.stderrLog ∧
    logLine labels scores ts
      = "[" ++ (ts ++ ("] " ++ (jsLabel labels (topIdx scores) ++
          (" (" ++ (jsConfidence scores (topIdx scores) ++
            ("%) | scores=" ++
              String.intercalate ", " (scores.map (toFixed 2)))))))) ∧
    (∀ q : ℚ, ∃ a b : String, toFixed 1 q = a ++ ("." ++ b) ∧ b.length = 1) ∧
    (∀ q : ℚ, ∃ a b : String, toFixed 2 q = a ++ ("." ++ b) ∧ b.length = 2) ∧
    (scores ≠ [] →
      ∃ v : ℚ, jsConfidence scores (topIdx scores) = toFixed 1 (v * 100)) := by
  refine ⟨by simp [tickRun, h], by simp [tickRun, h], rfl,
    fun q => toFixed_shape 1 one_ne_zero q,
    fun q => toFixed_shape 2 two_ne_zero q, fun hne => ?_⟩
  obtain ⟨j, m, htop, h1, -, -⟩ := topIdx_spec hne
  refine ⟨m, ?_⟩
  have hg : jsGetScore scores (topIdx scores) = some m := by
    rw [htop, jsGetScore_natCast]
    exact h1
  simp only [jsConfidence, hg]

/-- Witness for C7 from the idle startup state on the score vector `[1/4]`. -/
theorem success_log_format_witness :
    (tickRun [] ⟨false, [], []⟩
        (CycleOutcome.ok [mkRat 1 4] "2026-01-01T00:00:00.000Z")).stdoutLog
      = [] ++ [logLine [] [mkRat 1 4] "2026-01-01T00:00:00.000Z"] ∧
    (∃ v : ℚ,
      jsConfidence [mkRat 1 4] (topIdx [mkRat 1 4]) = toFixed 1 (v * 100)) :=
  ⟨(success_log_format [] ⟨false, [], []⟩ [mkRat 1 4] "2026-01-01T00:00:00.000Z"
      rfl).1,
   (success_log_format [] ⟨false, [], []⟩ [mkRat 1 4] "2026-01-01T00:00:00.000Z"
      rfl).2.2.2.2.2 (by decide)⟩

/-- C8: a metadata object with no `labels` field yields the empty label
list, and with the empty label list every reported label is the
synthesized `class_<index>` string, whatever the index. -/
theorem missing_labels_default :
    parseLabels none = [] ∧
    (∀ i : ℤ, jsLabel (parseLabels none) i = "class_" ++ toString i) := by
  refine ⟨rfl, fun i => ?_⟩
  unfold jsLabel jsGetLabel parseLabels
  rcases lt_or_le i 0 with hi | hi
  · rw [if_pos hi]
    rfl
  · rw [if_neg (not_lt.mpr hi)]
    simp

/-- C9: on the empty score vector the top index is `-1`, the reported
label is `class_-1` for every label set, the confidence renders as `NaN`,
and the cycle still completes and logs exactly its one line. -/
theorem empty_scores_edge (labels : List (Option String)) (st : LoopState)
    (ts : String) (h : st.running = false) :
    topIdx [] = -1 ∧
    jsLabel labels (topIdx []) = "class_-1" ∧
    jsConfidence [] (topIdx []) = "NaN" ∧
    (tickRun labels st (CycleOutcome.ok [] ts)).stdoutLog
      = st.stdoutLog ++ ["[" ++ (ts ++ "] class_-1 (NaN%) | scores=")] := by
  refine ⟨rfl, rfl, rfl, ?_⟩
  simp only [tickRun, h, if_false]
  rfl

/-- Witness for C9 from the idle startup state. -/
theorem empty_scores_edge_witness :
    topIdx [] = -1 ∧
    jsLabel [some "rock"] (topIdx []) = "class_-1" ∧
    jsConfidence [] (topIdx []) = "NaN" ∧
    (tickRun [some "rock"] ⟨false, [], []⟩ (CycleOutcome.ok [] "T")).stdoutLog
      = [] ++ ["[" ++ ("T" ++ "] class_-1 (NaN%) | scores=")] :=
  empty_scores_edge [some "rock"] ⟨false, [], []⟩ "T" rfl

/-- C10: the `class_<index>` fallback fires not only for an index out of
range of the label list but also for an in-range entry that is nullish. -/
theorem nullish_label_fallback (labels : List (Option String)) (i : ℕ) :
    (labels.length ≤ i → jsLabel labels (i : ℤ) = "class_" ++ toString (i : ℤ)) ∧
    (labels[i]? = some none →
      jsLabel labels (i : ℤ) = "class_" ++ toString (i : ℤ)) := by
  constructor
  · intro hlen
    unfold jsLabel
    rw [jsGetLabel_natCast]
    have hnone : labels[i]? = none := by
      rw [List.getElem?_eq_none]
      exact hlen
    simp [hnone]
  · intro hnull
    unfold jsLabel
    rw [jsGetLabel_natCast, hnull]
    rfl

/-- Witness for C10 on `[some "rock", none]` at the out-of-range index 5
and at the nullish in-range index 1. -/
theorem nullish_label_fallback_witness :
    jsLabel [some "rock", none] ((5 : ℕ) : ℤ)
      = "class_" ++ toString ((5 : ℕ) : ℤ) ∧
    jsLabel [some "rock", none] ((1 : ℕ) : ℤ)
      = "class_" ++ toString ((1 : ℕ) : ℤ) :=
  ⟨(nullish_label_fallback [some "rock", none] 5).1 (by decide),
   (nullish_label_fallback [some "rock", none] 1).2 (by decide)⟩
